import Mathlib

/-!
Verification of the module lifecycle state machine of the `beans` tool.

The development shallowly embeds `src/util.rs` (the process-result
classifier `Expectations` and the repository-introspection queries
`git_branch`, `git_hash`, `git_status`) and `src/kernel.rs` (the `Kernel`
module with its three lifecycle operations `load`, `sync`, `unload`).

Subprocess execution is modelled by an oracle `GitWorld` mapping each git
command the code can spawn to its outcome: `none` models the spawn itself
failing (the `?` on `Command::status()` / `Command::output()`), and
`some (st, out)` gives the exit status and the captured standard output.
Each lifecycle operation additionally returns the list of commands it
spawned, in order, so that "invokes no subprocess" and "performs no
branch switch" are directly statable.
-/

namespace Beans

/-- A filesystem path, as its list of components; `Path::join` is append
and `Path::file_name` is the last component. -/
abbrev Path := List String

/-- The git commands the code spawns (§6 subprocess contract):
`worktree add <path> -b <branch>`, `worktree add <path> -d`,
`worktree remove <path>`, `switch <branch> --detach`,
`branch --show-current`, `log --pretty=%H`, each with its working
directory. -/
inductive Cmd where
  | worktreeAddBranch (cwd target : Path) (branch : String)
  | worktreeAddDetach (cwd target : Path)
  | worktreeRemove (cwd target : Path)
  | switchDetach (cwd : Path) (branch : String)
  | branchShowCurrent (cwd : Path)
  | logPretty (cwd : Path)
  deriving DecidableEq, Repr

/-- `std::process::ExitStatus`, reduced to what the code observes: the
optional numeric exit code (`none` when the process was terminated
without one, e.g. by a signal). -/
structure ExitStatus where
  code : Option Int
  deriving DecidableEq, Repr

/-- `ExitStatus::success()`: exit code zero. -/
def ExitStatus.success (s : ExitStatus) : Bool := s.code = some 0

/-- Error kinds produced by the core, named as in §7 of the design; the
Rust code carries them as `std::io::Error` values with these meanings.
`SpawnFailure` models the `?` on `Command::status()`/`output()` itself
(the subprocess could not be spawned at all). -/
inductive GitError where
  | UnexpectedExit
  | NoExitCode
  | InvalidEnvironmentName
  | NotLoaded
  | DirtyWorkingTree
  | SpawnFailure
  deriving DecidableEq, Repr

/-- `Expectations::expect_success` from `src/util.rs`: succeed only when
the process's own success indicator is true. -/
def expect_success (s : ExitStatus) : Except GitError Unit :=
  if s.success then .ok () else .error .UnexpectedExit

/-- The `for &c in code` loop inside `Expectations::expect`. -/
def findAllowed (actual : Int) : List Int → Except GitError Unit
  | [] => .error .UnexpectedExit
  | c :: rest => if actual = c then .ok () else findAllowed actual rest

/-- `Expectations::expect` from `src/util.rs`: `NoExitCode` when the
process reports no numeric exit code, otherwise scan the allow-list. -/
def expect (s : ExitStatus) (allowed : List Int) : Except GitError Unit :=
  match s.code with
  | none => .error .NoExitCode
  | some actual => findAllowed actual allowed

/-- The subprocess oracle: what the outside world answers to each spawned
git command. -/
abbrev GitWorld := Cmd → Option (ExitStatus × String)

/-- `bean_name_from_` from `src/util.rs`: the final path component of the
bean path, or `InvalidEnvironmentName` when there is none. -/
def bean_name_from_ (bean_path : Path) : Except GitError String :=
  match bean_path.getLast? with
  | none => .error .InvalidEnvironmentName
  | some n => .ok n

/-- `git_branch` from `src/util.rs`: run `git branch --show-current` in
`path`, require success, return the captured stdout.  The second
component is the list of commands spawned. -/
def git_branch (w : GitWorld) (path : Path) :
    Except GitError String × List Cmd :=
  (match w (Cmd.branchShowCurrent path) with
   | none => .error .SpawnFailure
   | some (st, out) =>
     match expect_success st with
     | .error e => .error e
     | .ok _ => .ok out,
   [Cmd.branchShowCurrent path])

/-- `git_hash` from `src/util.rs`: run `git log --pretty=%H` in `path`,
require success, return the captured stdout (the entire log output, not
just its first line). -/
def git_hash (w : GitWorld) (path : Path) :
    Except GitError String × List Cmd :=
  (match w (Cmd.logPretty path) with
   | none => .error .SpawnFailure
   | some (st, out) =>
     match expect_success st with
     | .error e => .error e
     | .ok _ => .ok out,
   [Cmd.logPretty path])

/-- `git_status` from `src/util.rs`: run `git log --pretty=%H` in `path`,
require success, and report `stdout.len() > 0`. -/
def git_status (w : GitWorld) (path : Path) :
    Except GitError Bool × List Cmd :=
  (match w (Cmd.logPretty path) with
   | none => .error .SpawnFailure
   | some (st, out) =>
     match expect_success st with
     | .error e => .error e
     | .ok _ => .ok (decide (0 < out.length)),
   [Cmd.logPretty path])

/-- `KernelStatus` from `src/kernel.rs`. -/
inductive KernelStatus where
  | Unloaded
  | Loaded (branch : String) (hash : String)
  deriving DecidableEq, Repr

/-- `Kernel` from `src/kernel.rs`. -/
structure Kernel where
  source_path : Path
  clean_path : Path
  bean_relative_dev_path : Path
  module_status : KernelStatus
  deriving DecidableEq, Repr

/-- `Kernel::load` from `src/kernel.rs`.  Returns the operation result,
the kernel after the call (the Rust code mutates `self`), and the list of
spawned subprocesses in order. -/
def load (self : Kernel) (w : GitWorld) (bean_path : Path) :
    Except GitError Unit × Kernel × List Cmd :=
  match self.module_status with
  | .Loaded _ _ => (.ok (), self, [])
  | .Unloaded =>
    let module_path := bean_path ++ self.bean_relative_dev_path
    match bean_name_from_ bean_path with
    | .error e => (.error e, self, [])
    | .ok name =>
      let c1 := Cmd.worktreeAddBranch self.source_path module_path name
      match w c1 with
      | none => (.error .SpawnFailure, self, [c1])
      | some (st1, _) =>
        match expect_success st1 with
        | .error e => (.error e, self, [c1])
        | .ok _ =>
          let c2 := Cmd.worktreeAddDetach self.source_path self.clean_path
          match w c2 with
          | none => (.error .SpawnFailure, self, [c1, c2])
          | some (st2, _) =>
            match expect st2 [0, 128] with
            | .error e => (.error e, self, [c1, c2])
            | .ok _ =>
              match git_branch w module_path with
              | (.error e, t3) => (.error e, self, [c1, c2] ++ t3)
              | (.ok branch, t3) =>
                match git_hash w module_path with
                | (.error e, t4) => (.error e, self, [c1, c2] ++ t3 ++ t4)
                | (.ok hash, t4) =>
                  (.ok (),
                   { self with module_status := .Loaded branch hash },
                   [c1, c2] ++ t3 ++ t4)

/-- `Kernel::sync` from `src/kernel.rs`. -/
def sync (self : Kernel) (w : GitWorld) (bean_path : Path) :
    Except GitError Unit × Kernel × List Cmd :=
  match self.module_status with
  | .Unloaded => (.error .NotLoaded, self, [])
  | .Loaded _ _ =>
    let module_path := bean_path ++ self.bean_relative_dev_path
    match git_status w module_path with
    | (.error e, t1) => (.error e, self, t1)
    | (.ok clean, t1) =>
      if !clean then (.error .DirtyWorkingTree, self, t1)
      else
        match git_branch w module_path with
        | (.error e, t2) => (.error e, self, t1 ++ t2)
        | (.ok branch, t2) =>
          let c := Cmd.switchDetach self.clean_path branch
          match w c with
          | none => (.error .SpawnFailure, self, t1 ++ t2 ++ [c])
          | some (st, _) =>
            match expect_success st with
            | .error e => (.error e, self, t1 ++ t2 ++ [c])
            | .ok _ =>
              match git_hash w module_path with
              | (.error e, t3) => (.error e, self, t1 ++ t2 ++ [c] ++ t3)
              | (.ok hash, t3) =>
                (.ok (),
                 { self with module_status := .Loaded branch hash },
                 t1 ++ t2 ++ [c] ++ t3)

/-- `Kernel::unload` from `src/kernel.rs`: the in-memory status is set to
`Unloaded` before the worktree-removal subprocess is spawned, so the
returned kernel carries `Unloaded` in every branch, error or not. -/
def unload (self : Kernel) (w : GitWorld) (bean_path : Path) :
    Except GitError Unit × Kernel × List Cmd :=
  match self.module_status with
  | .Unloaded => (.ok (), self, [])
  | .Loaded _ _ =>
    let module_path := bean_path ++ self.bean_relative_dev_path
    let c := Cmd.worktreeRemove self.source_path module_path
    let self2 := { self with module_status := KernelStatus.Unloaded }
    match w c with
    | none => (.error .SpawnFailure, self2, [c])
    | some (st, _) =>
      match expect_success st with
      | .error e => (.error e, self2, [c])
      | .ok _ => (.ok (), self2, [c])

/-! ## A model of the external git tool for concrete scenarios

The spec (§6) fixes the subprocess contract; to evaluate the introspection
queries on concrete repositories we model the relevant behaviour of git
itself: `log --pretty=%H` prints the hash of every commit reachable from
`HEAD`, one per line, most recent first — its output never reflects
uncommitted working-tree changes — and `branch --show-current` prints the
checked-out branch name. -/

/-- On-disk state of one worktree: the commit hashes reachable from
`HEAD` (most recent first) and whether uncommitted changes are present in
the working tree. -/
structure Worktree where
  commits : List String
  dirty : Bool
  deriving DecidableEq, Repr

/-- Stdout of `git log --pretty=%H` on a worktree: every reachable commit
hash, one per line.  Independent of `dirty`: `git log` does not inspect
the working tree. -/
def gitLogOutput (t : Worktree) : String :=
  String.join (t.commits.map (fun h => h ++ "\n"))

/-- The hash of `HEAD`: the most recent commit, when one exists. -/
def headHash (t : Worktree) : Option String := t.commits.head?

/-- Oracle for a world whose dev worktree at `dev` is in state `t` and is
checked out on branch `b`: every command succeeds with exit code 0;
`log --pretty=%H` in `dev` prints `gitLogOutput t` and
`branch --show-current` in `dev` prints `b`. -/
def worldOf (dev : Path) (t : Worktree) (b : String) : GitWorld := fun c =>
  match c with
  | Cmd.logPretty p =>
      some (⟨some 0⟩, if p = dev then gitLogOutput t else "")
  | Cmd.branchShowCurrent p =>
      some (⟨some 0⟩, if p = dev then b else "")
  | _ => some (⟨some 0⟩, "")

/-! ## Helper lemmas -/

/-- The allow-list scan succeeds exactly on membership. -/
theorem findAllowed_ok_iff (actual : Int) (l : List Int) :
    findAllowed actual l = .ok () ↔ actual ∈ l := by
  induction l with
  | nil => simp [findAllowed]
  | cons c rest ih =>
      by_cases h : actual = c <;> simp [findAllowed, h, ih]

/-- The allow-list scan fails with `UnexpectedExit` off the list. -/
theorem findAllowed_not_mem (actual : Int) (l : List Int)
    (h : actual ∉ l) : findAllowed actual l = .error .UnexpectedExit := by
  induction l with
  | nil => simp [findAllowed]
  | cons c rest ih =>
      rw [List.mem_cons, not_or] at h
      simp [findAllowed, h.1, ih h.2]

/-- `load` either succeeds or returns the kernel unchanged. -/
theorem load_ok_or_unchanged (k : Kernel) (w : GitWorld) (p : Path) :
    (load k w p).1 = .ok () ∨ (load k w p).2.1 = k := by
  simp only [load]
  repeat' split
  all_goals first | exact Or.inl rfl | exact Or.inr rfl

/-! ## The claims -/

/-- C8: for every exit status and every allow-list, `expect` succeeds iff
the status carries a numeric exit code equal to some allowed value; it
fails with `NoExitCode` when there is no numeric code, and with
`UnexpectedExit` when a code is present but not allowed. -/
theorem expect_characterisation (st : ExitStatus) (allowed : List Int) :
    (expect st allowed = .ok () ↔ ∃ c ∈ allowed, st.code = some c) ∧
    (st.code = none → expect st allowed = .error .NoExitCode) ∧
    (∀ c : Int, st.code = some c → c ∉ allowed →
      expect st allowed = .error .UnexpectedExit) := by
  obtain ⟨co⟩ := st
  cases co with
  | none => simp [expect]
  | some actual =>
      refine ⟨?_, by simp, ?_⟩
      · simp only [expect, findAllowed_ok_iff]
        constructor
        · intro h; exact ⟨actual, h, rfl⟩
        · rintro ⟨c, hc, heq⟩
          cases Option.some.inj heq
          exact hc
      · intro c hc hmem
        cases Option.some.inj hc
        simpa [expect] using findAllowed_not_mem actual allowed hmem

/-- Closed instance of C8 at concrete inputs. -/
theorem expect_characterisation_example :
    expect ⟨some 128⟩ [0, 128] = .ok () ∧
    expect ⟨none⟩ [0, 128] = .error .NoExitCode ∧
    expect ⟨some 7⟩ [0, 128] = .error .UnexpectedExit := by
  refine ⟨?_, ?_, ?_⟩
  · exact (expect_characterisation ⟨some 128⟩ [0, 128]).1.mpr
      ⟨128, by decide, rfl⟩
  · exact (expect_characterisation ⟨none⟩ [0, 128]).2.1 rfl
  · exact (expect_characterisation ⟨some 7⟩ [0, 128]).2.2 7 rfl (by decide)

/-- C3: `load` on an already-`Loaded` kernel returns success, spawns no
subprocess, and leaves the kernel (hence its `Loaded{branch, hash}`
status) unchanged; consequently a second `load` returns the same result
as the first. -/
theorem load_idempotent_on_loaded (k : Kernel) (w : GitWorld) (p : Path)
    (b h : String) (hk : k.module_status = .Loaded b h) :
    load k w p = (.ok (), k, []) ∧
    load (load k w p).2.1 w p = load k w p := by
  have h1 : load k w p = (.ok (), k, []) := by
    unfold load; rw [hk]
  exact ⟨h1, by rw [h1]; exact h1⟩

/-- Closed instance of C3. -/
theorem load_idempotent_on_loaded_example :
    load ⟨["repo"], ["clean"], ["kernel"], .Loaded "feature-x" "aaa"⟩
        (fun _ => some (⟨some 0⟩, "")) ["bean"] =
      (.ok (), ⟨["repo"], ["clean"], ["kernel"], .Loaded "feature-x" "aaa"⟩,
        []) :=
  (load_idempotent_on_loaded
    ⟨["repo"], ["clean"], ["kernel"], .Loaded "feature-x" "aaa"⟩
    (fun _ => some (⟨some 0⟩, "")) ["bean"] "feature-x" "aaa" rfl).1

/-- C4: `sync` on an `Unloaded` kernel fails with `NotLoaded`, spawns no
subprocess, and leaves the kernel unchanged. -/
theorem sync_unloaded_fails (k : Kernel) (w : GitWorld) (p : Path)
    (hk : k.module_status = .Unloaded) :
    sync k w p = (.error .NotLoaded, k, []) := by
  unfold sync; rw [hk]

/-- Closed instance of C4. -/
theorem sync_unloaded_fails_example :
    sync ⟨["repo"], ["clean"], ["kernel"], .Unloaded⟩
        (fun _ => some (⟨some 0⟩, "")) ["bean"] =
      (.error .NotLoaded, ⟨["repo"], ["clean"], ["kernel"], .Unloaded⟩,
        []) :=
  sync_unloaded_fails ⟨["repo"], ["clean"], ["kernel"], .Unloaded⟩
    (fun _ => some (⟨some 0⟩, "")) ["bean"] rfl

/-- C9: `unload` on an `Unloaded` kernel returns success, spawns no
subprocess, and leaves the kernel unchanged. -/
theorem unload_idempotent_on_unloaded (k : Kernel) (w : GitWorld)
    (p : Path) (hk : k.module_status = .Unloaded) :
    unload k w p = (.ok (), k, []) := by
  unfold unload; rw [hk]

/-- Closed instance of C9. -/
theorem unload_idempotent_on_unloaded_example :
    unload ⟨["repo"], ["clean"], ["kernel"], .Unloaded⟩
        (fun _ => some (⟨some 0⟩, "")) ["bean"] =
      (.ok (), ⟨["repo"], ["clean"], ["kernel"], .Unloaded⟩, []) :=
  unload_idempotent_on_unloaded ⟨["repo"], ["clean"], ["kernel"], .Unloaded⟩
    (fun _ => some (⟨some 0⟩, "")) ["bean"] rfl

/-- C5: `load` is atomic on failure — from `Unloaded`, whenever `load`
returns an error (at the dev worktree creation, the clean worktree
creation, or the read-back of branch and hash), the kernel is unchanged
and its recorded status is still `Unloaded`. -/
theorem load_atomic_on_failure (k : Kernel) (w : GitWorld) (p : Path)
    (e : GitError) (hk : k.module_status = .Unloaded)
    (hf : (load k w p).1 = .error e) :
    (load k w p).2.1 = k ∧ (load k w p).2.1.module_status = .Unloaded := by
  rcases load_ok_or_unchanged k w p with hok | heq
  · rw [hf] at hok
    exact absurd hok (by simp)
  · exact ⟨heq, by rw [heq, hk]⟩

/-- Closed instance of C5: the dev worktree creation exits 1, `load`
fails with `UnexpectedExit`, the status is still `Unloaded`. -/
theorem load_atomic_on_failure_example :
    (load ⟨["repo"], ["clean"], ["kernel"], .Unloaded⟩
        (fun _ => some (⟨some 1⟩, "")) ["bean"]).2.1 =
      ⟨["repo"], ["clean"], ["kernel"], .Unloaded⟩ ∧
    (load ⟨["repo"], ["clean"], ["kernel"], .Unloaded⟩
        (fun _ => some (⟨some 1⟩, "")) ["bean"]).2.1.module_status =
      .Unloaded :=
  load_atomic_on_failure ⟨["repo"], ["clean"], ["kernel"], .Unloaded⟩
    (fun _ => some (⟨some 1⟩, "")) ["bean"] .UnexpectedExit rfl rfl

/-- C6: `unload` on a `Loaded` kernel sets the in-memory status to
`Unloaded` before spawning worktree removal: in every branch — including
when the removal subprocess fails and `unload` returns an error — the
returned kernel carries `Unloaded`, and exactly the removal command was
spawned. -/
theorem unload_sets_unloaded_before_removal (k : Kernel) (w : GitWorld)
    (p : Path) (b h : String) (hk : k.module_status = .Loaded b h) :
    (unload k w p).2.1 = { k with module_status := .Unloaded } ∧
    (unload k w p).2.2 =
      [Cmd.worktreeRemove k.source_path (p ++ k.bean_relative_dev_path)] ∧
    ∀ e, (unload k w p).1 = .error e →
      (unload k w p).2.1.module_status = .Unloaded := by
  simp only [unload, hk]
  repeat' split
  all_goals exact ⟨rfl, rfl, fun _ _ => rfl⟩

/-- Closed instance of C6: removal exits 1, `unload` errors, yet the
recorded status is already `Unloaded`. -/
theorem unload_sets_unloaded_before_removal_example :
    (unload ⟨["repo"], ["clean"], ["kernel"], .Loaded "feature-x" "aaa"⟩
        (fun _ => some (⟨some 1⟩, "")) ["bean"]).2.1 =
      ⟨["repo"], ["clean"], ["kernel"], .Unloaded⟩ ∧
    (unload ⟨["repo"], ["clean"], ["kernel"], .Loaded "feature-x" "aaa"⟩
        (fun _ => some (⟨some 1⟩, "")) ["bean"]).2.2 =
      [Cmd.worktreeRemove ["repo"] ["bean", "kernel"]] :=
  ⟨(unload_sets_unloaded_before_removal
      ⟨["repo"], ["clean"], ["kernel"], .Loaded "feature-x" "aaa"⟩
      (fun _ => some (⟨some 1⟩, "")) ["bean"] "feature-x" "aaa" rfl).1,
   (unload_sets_unloaded_before_removal
      ⟨["repo"], ["clean"], ["kernel"], .Loaded "feature-x" "aaa"⟩
      (fun _ => some (⟨some 1⟩, "")) ["bean"] "feature-x" "aaa" rfl).2.1⟩

/-- C7: during `load` from `Unloaded`, the dev worktree creation demands
the success indicator exactly (a non-success exit is fatal with
`UnexpectedExit`), while the clean worktree creation's classification
`expect st [0, 128]` succeeds iff the exit code is 0 or 128; any other
outcome (`NoExitCode` or `UnexpectedExit`) is the error `load` returns. -/
theorem load_worktree_exit_codes (k : Kernel) (w : GitWorld) (p : Path)
    (name : String) (hk : k.module_status = .Unloaded)
    (hname : p.getLast? = some name) :
    (∀ st out,
      w (Cmd.worktreeAddBranch k.source_path
          (p ++ k.bean_relative_dev_path) name) = some (st, out) →
      st.success = false → (load k w p).1 = .error .UnexpectedExit) ∧
    (∀ st : ExitStatus,
      expect st [0, 128] = .ok () ↔
        st.code = some 0 ∨ st.code = some 128) ∧
    (∀ st1 out1 st2 out2 e,
      w (Cmd.worktreeAddBranch k.source_path
          (p ++ k.bean_relative_dev_path) name) = some (st1, out1) →
      st1.success = true →
      w (Cmd.worktreeAddDetach k.source_path k.clean_path) =
        some (st2, out2) →
      expect st2 [0, 128] = .error e →
      (load k w p).1 = .error e) := by
  refine ⟨?_, ?_, ?_⟩
  · intro st out hw hsucc
    simp [load, hk, bean_name_from_, hname, hw, expect_success, hsucc]
  · intro st
    obtain ⟨co⟩ := st
    cases co with
    | none => simp [expect]
    | some actual => simp [expect, findAllowed_ok_iff]
  · intro st1 out1 st2 out2 e hw1 hsucc hw2 he
    simp [load, hk, bean_name_from_, hname, hw1, expect_success, hsucc, hw2,
      he]

/-- Closed instance of C7: the clean worktree creation exits 7, `load`
fails with `UnexpectedExit`; code 128 is classified as success. -/
theorem load_worktree_exit_codes_example :
    (load ⟨["repo"], ["clean"], ["kernel"], .Unloaded⟩
        (fun c => match c with
          | Cmd.worktreeAddDetach _ _ => some (⟨some 7⟩, "")
          | _ => some (⟨some 0⟩, "")) ["bean"]).1 =
      .error .UnexpectedExit ∧
    expect ⟨some 128⟩ [0, 128] = .ok () := by
  have spec := load_worktree_exit_codes
    ⟨["repo"], ["clean"], ["kernel"], .Unloaded⟩
    (fun c => match c with
      | Cmd.worktreeAddDetach _ _ => some (⟨some 7⟩, "")
      | _ => some (⟨some 0⟩, "")) ["bean"] "bean" rfl rfl
  refine ⟨?_, (spec.2.1 ⟨some 128⟩).mpr (Or.inr rfl)⟩
  exact spec.2.2 ⟨some 0⟩ "" ⟨some 7⟩ "" .UnexpectedExit rfl rfl rfl rfl

/-- C10: each lifecycle operation — whether it succeeds or fails — leaves
`source_path`, `clean_path` and `bean_relative_dev_path` unchanged;
`module_status` is the only field any of them mutates. -/
theorem lifecycle_preserves_config_fields (k : Kernel) (w : GitWorld)
    (p : Path) :
    ((load k w p).2.1.source_path = k.source_path ∧
     (load k w p).2.1.clean_path = k.clean_path ∧
     (load k w p).2.1.bean_relative_dev_path = k.bean_relative_dev_path) ∧
    ((sync k w p).2.1.source_path = k.source_path ∧
     (sync k w p).2.1.clean_path = k.clean_path ∧
     (sync k w p).2.1.bean_relative_dev_path = k.bean_relative_dev_path) ∧
    ((unload k w p).2.1.source_path = k.source_path ∧
     (unload k w p).2.1.clean_path = k.clean_path ∧
     (unload k w p).2.1.bean_relative_dev_path =
       k.bean_relative_dev_path) := by
  refine ⟨?_, ?_, ?_⟩
  · simp only [load]
    repeat' split
    all_goals exact ⟨rfl, rfl, rfl⟩
  · simp only [sync]
    repeat' split
    all_goals exact ⟨rfl, rfl, rfl⟩
  · simp only [unload]
    repeat' split
    all_goals exact ⟨rfl, rfl, rfl⟩

/-- C1 (refuting evaluation): a `Loaded` kernel whose dev worktree has
uncommitted changes present (`dirty = true`) but a non-empty commit log —
`sync` does NOT fail with `DirtyWorkingTree`: it returns success and
spawns the `switch --detach` subprocess on the clean worktree, because
`git_status` only tests whether the `log --pretty=%H` output is
non-empty, which never reflects uncommitted changes. -/
theorem sync_ignores_uncommitted_changes :
    (Worktree.mk ["aaa"] true).dirty = true ∧
    (sync ⟨["repo"], ["clean"], ["kernel"], .Loaded "feature-x" "aaa"⟩
        (worldOf ["bean", "kernel"] ⟨["aaa"], true⟩ "feature-x")
        ["bean"]).1 = .ok () ∧
    Cmd.switchDetach ["clean"] "feature-x" ∈
      (sync ⟨["repo"], ["clean"], ["kernel"], .Loaded "feature-x" "aaa"⟩
        (worldOf ["bean", "kernel"] ⟨["aaa"], true⟩ "feature-x")
        ["bean"]).2.2 := by
  have h : sync ⟨["repo"], ["clean"], ["kernel"], .Loaded "feature-x" "aaa"⟩
      (worldOf ["bean", "kernel"] ⟨["aaa"], true⟩ "feature-x") ["bean"] =
      (.ok (),
       ⟨["repo"], ["clean"], ["kernel"], .Loaded "feature-x" "aaa\n"⟩,
       [Cmd.logPretty ["bean", "kernel"],
        Cmd.branchShowCurrent ["bean", "kernel"],
        Cmd.switchDetach ["clean"] "feature-x",
        Cmd.logPretty ["bean", "kernel"]]) := rfl
  refine ⟨rfl, ?_, ?_⟩
  · rw [h]
  · rw [h]
    simp

/-- C2 (refuting evaluation): on a worktree with two commits, `git_hash`
returns the newline-joined concatenation of every hash in the log output
of `git log --pretty=%H`, not the single full hash of `HEAD`. -/
theorem git_hash_returns_entire_log :
    headHash ⟨["aaa", "bbb"], false⟩ = some "aaa" ∧
    (git_hash (worldOf ["dev"] ⟨["aaa", "bbb"], false⟩ "main")
        ["dev"]).1 = .ok "aaa\nbbb\n" ∧
    ("aaa\nbbb\n" : String) ≠ "aaa" := by
  refine ⟨rfl, rfl, by decide⟩

end Beans
